import Mathlib

/-!
Verification development for the bucket / node / transaction layer of a
Rust port of the bbolt embedded key/value store.

The definitions below are a shallow embedding of the source files
`src/bucket.rs`, `src/node.rs`, `src/tx.rs`, `src/common/page.rs` and
`src/common/errors.rs`.  Keys and values are byte strings, modelled as
`List Nat`; machine integers are modelled as `Nat` (the sizes involved
never overflow the corresponding Rust types on the inputs considered).

A bucket's key/value content, as observed through the cursor, is modelled
as the ordered list of its leaf entries (`Entry`): this is the observable
state that `get` / `put` / `delete` / `delete_bucket` / `create_bucket`
read and mutate through `cursor.i_seek` followed by `NodeImpl::put` /
`NodeImpl::del` on the leaf node holding the position.

The repository does not ship `src/cursor.rs`, `src/common/tree.rs`,
`src/common/inode.rs` or `src/db.rs`; where a definition depends on those
files it is modelled from the specification and carries a doc comment
starting with `Modelled from the spec:`.
-/

namespace BBolt

/-! ### Constants (src/bucket.rs, src/common/page.rs) -/

/-- src/bucket.rs: `const MAX_KEY_SIZE: u32 = 32768`. -/
def MAX_KEY_SIZE : Nat := 32768

/-- src/bucket.rs: `const MAX_VALUE_SIZE: u32 = (1 << 31) - 2`. -/
def MAX_VALUE_SIZE : Nat := 2 ^ 31 - 2

/-- src/common/page.rs: `BUCKET_LEAF_FLAG: u32 = 0x01` (leaf-element flag marking a sub-bucket). -/
def BUCKET_LEAF_FLAG : Nat := 1

/-- src/common/page.rs: `BRANCH_PAGE_FLAG: u16 = 0x01`. -/
def BRANCH_PAGE_FLAG : Nat := 1

/-- src/common/page.rs: `LEAF_PAGE_FLAG: u16 = 0x02`. -/
def LEAF_PAGE_FLAG : Nat := 2

/-- src/common/page.rs: `META_PAGE_FLAG: u16 = 0x04`. -/
def META_PAGE_FLAG : Nat := 4

/-- src/common/page.rs: `FREE_LIST_PAGE_FLAG: u16 = 0x10`. -/
def FREE_LIST_PAGE_FLAG : Nat := 16

/-- src/common/page.rs: `PAGE_HEADER_SIZE = size_of::<Page>()`; the `repr(C)` struct
`Page { id: u64, flags: u16, count: u16, overflow: u32 }` occupies 16 bytes. -/
def PAGE_HEADER_SIZE : Nat := 16

/-- Modelled from the spec: `src/common/tree.rs` is not in the sources.  §3 describes a
leaf-page element descriptor as `(flags, key_offset, key_size, value_size)`, four 32-bit
fields, hence 16 bytes. -/
def LEAF_PAGE_ELEMENT_SIZE : Nat := 16

/-! ### Errors (src/common/errors.rs), restricted to the user-input kinds the
bucket and transaction operations under consideration can produce. -/

inductive DbError where
  | bucketNotFound
  | bucketExists
  | bucketNameRequired
  | keyRequired
  | keyTooLarge
  | valueTooLarge
  | incompatibleValue
  | other
  deriving DecidableEq, Repr

/-- Outcome of an operation that can panic (a Rust `unwrap`/`assert` failure),
fail with an error, or succeed with a result. -/
inductive POutcome (α : Type) where
  | panics
  | err (e : DbError)
  | ok (a : α)
  deriving DecidableEq, Repr

/-! ### Keys and lexicographic byte order -/

/-- Lexicographic comparison of byte strings: the order used by the tree
(`probe.key().cmp(key)` on `&[u8]` in src/node.rs, and the cursor's binary search). -/
def keyCmp : List Nat → List Nat → Ordering
  | [], [] => .eq
  | [], _ :: _ => .lt
  | _ :: _, [] => .gt
  | a :: as', b :: bs' =>
    match compare a b with
    | .eq => keyCmp as' bs'
    | o => o

/-- One leaf entry of a bucket as the cursor observes it: key bytes, value bytes
and the leaf-element flags (`BUCKET_LEAF_FLAG` marks a sub-bucket). -/
structure Entry where
  key : List Nat
  value : List Nat
  flags : Nat
  deriving DecidableEq, Repr

/-- Strictly ascending key order over a bucket's leaf entries — invariant 3 of the
spec's data model, maintained by the B+tree. -/
def EntriesSorted (entries : List Entry) : Prop :=
  List.Pairwise (fun a b => keyCmp a.key b.key = .lt) entries

/-- Modelled from the spec: `src/cursor.rs` is not in the sources.  §4.F, `seek(key)`:
descend by binary search and "on leaves return the first element ≥ target.  Returns
`(key, value, flags)` or none.  If the seek lands past the end of a leaf, it advances
to the next leaf element."  On the ordered entry list this is the first entry whose
key is ≥ the target, and none when every stored key is smaller. -/
def iSeek (entries : List Entry) (key : List Nat) : Option Entry :=
  match entries with
  | [] => none
  | e :: rest => if keyCmp key e.key ≠ .gt then some e else iSeek rest key

/-! ### Node-level mutation (src/node.rs) -/

/-- src/node.rs, `NodeMut::put` with `old_key = new_key` and `pgid = ZERO_PGID` (the only
form the bucket operations use): binary search by key over the sorted inode list, replace
on an exact hit, otherwise insert at the lower-bound position.  (The panics guarding
`pgid >= high-water mark` and zero-length keys cannot fire at these call sites: the bucket
operations pass `pgid = 0` below the high-water mark and check key non-emptiness first.) -/
def nodePut (entries : List Entry) (key value : List Nat) (flags : Nat) : List Entry :=
  match entries with
  | [] => [⟨key, value, flags⟩]
  | e :: rest =>
    match keyCmp key e.key with
    | .lt => ⟨key, value, flags⟩ :: e :: rest
    | .eq => ⟨key, value, flags⟩ :: rest
    | .gt => e :: nodePut rest key value flags

/-- src/node.rs, `NodeMut::del`: binary search by key; remove only on an exact hit
(`binary_search` on the sorted inode list finds no exact match otherwise). -/
def nodeDel (entries : List Entry) (key : List Nat) : List Entry :=
  match entries with
  | [] => []
  | e :: rest =>
    match keyCmp key e.key with
    | .eq => rest
    | .lt => e :: rest
    | .gt => e :: nodeDel rest key

/-! ### InBucket headers and the inline-page value written by create_bucket
(src/common/bucket.rs is absent; layout from spec §3 and src/bucket.rs) -/

/-- The 16-byte bucket header: `root_pgid: u64, sequence: u64` (spec §3, InBucket). -/
structure InBucket where
  root : Nat
  sequence : Nat
  deriving DecidableEq, Repr

/-- Little-endian encoding of `n` into `w` bytes (the file format is little-endian, §6). -/
def leBytes (w n : Nat) : List Nat :=
  (List.range w).map (fun i => n / 256 ^ i % 256)

/-- Decode `w` little-endian bytes back into a natural number. -/
def fromLeBytes (bytes : List Nat) : Nat :=
  bytes.foldr (fun b acc => b + 256 * acc) 0

/-- Byte encoding of an `InBucket` header (two little-endian u64 fields). -/
def inBucketBytes (b : InBucket) : List Nat :=
  leBytes 8 b.root ++ leBytes 8 b.sequence

/-- Byte encoding of a page header `Page { id: u64, flags: u16, count: u16, overflow: u32 }`
(src/common/page.rs, `repr(C)`, little-endian). -/
def pageHeaderBytes (id flags count overflow : Nat) : List Nat :=
  leBytes 8 id ++ leBytes 2 flags ++ leBytes 2 count ++ leBytes 4 overflow

/-- src/bucket.rs, `api_create_bucket`: the leaf value written for a fresh bucket is
`InlinePage::default()` with `page.set_leaf()` — an `InBucket { root: 0, sequence: 0 }`
header followed by an empty leaf page header. -/
def newBucketValue : List Nat :=
  inBucketBytes ⟨0, 0⟩ ++ pageHeaderBytes 0 LEAF_PAGE_FLAG 0 0

/-- `IN_BUCKET_SIZE = size_of::<InBucket>()`: the 16-byte header (spec §3). -/
def IN_BUCKET_SIZE : Nat := 16

/-- src/bucket.rs: `INLINE_PAGE_SIZE = size_of::<InlinePage>()` — an `InBucket` header
followed by a `Page` header, 32 bytes. -/
def INLINE_PAGE_SIZE : Nat := 32

/-- Decode the two little-endian u64 fields of a 16-byte `InBucket` slice (callers check
the length: `bytemuck::from_bytes` only accepts exactly `IN_BUCKET_SIZE` bytes). -/
def openBucketHeader (value : List Nat) : InBucket :=
  ⟨fromLeBytes (value.take 8), fromLeBytes ((value.drop 8).take 8)⟩

/-- src/bucket.rs, `open_bucket`: `bytemuck::from_bytes::<InBucket>(value)` panics unless
the value slice is exactly `IN_BUCKET_SIZE` (16) bytes; when the decoded root is 0 the
following `assert!(value.len() >= INLINE_PAGE_SIZE)` (32 bytes) demands a length the
16-byte check has already ruled out, so every inline-bucket value panics and only a bare
16-byte header with a non-zero root opens.  (The aligned-copy preamble does not change
the bytes.) -/
def openBucket (value : List Nat) : POutcome InBucket :=
  if value.length ≠ IN_BUCKET_SIZE then .panics
  else
    let header := openBucketHeader value
    if header.root = 0 then
      if value.length ≥ INLINE_PAGE_SIZE then .ok header
      else .panics
    else .ok header

/-! ### Bucket operations (src/bucket.rs) -/

/-- src/bucket.rs, `api_bucket`: seek the name; return none (`.ok none`) unless the key
matches exactly and the value carries `BUCKET_LEAF_FLAG`; otherwise `open_bucket` the
value bytes, which may panic (see `openBucket`).  (The writer's name→bucket cache is
empty along the paths proved about below; consulting it is observationally the identity
there.) -/
def apiBucket (entries : List Entry) (name : List Nat) : POutcome (Option InBucket) :=
  match iSeek entries name with
  | none => .ok none
  | some e =>
    if name ≠ e.key ∨ e.flags &&& BUCKET_LEAF_FLAG = 0 then .ok none
    else
      match openBucket e.value with
      | .panics => .panics
      | .err er => .err er
      | .ok b => .ok (some b)

/-- src/bucket.rs, `api_get`: `i_seek(key).unwrap()` — a failed seek panics; then return
none if the element carries `BUCKET_LEAF_FLAG`, none if the key is not an exact match,
otherwise the value. -/
def apiGet (entries : List Entry) (key : List Nat) : POutcome (Option (List Nat)) :=
  match iSeek entries key with
  | none => .panics
  | some e =>
    if e.flags &&& BUCKET_LEAF_FLAG ≠ 0 then .ok none
    else if key ≠ e.key then .ok none
    else .ok (some e.value)

/-- src/bucket.rs, `api_put`: size checks first (`KeyRequired`, `KeyTooLarge`,
`ValueTooLarge`), then `i_seek(key).unwrap()` (panic on a failed seek), then the guard
`(flags & BUCKET_LEAF_FLAG) != 0 || key != k → IncompatibleValue`, else
`NodeImpl::put(key, key, value, 0, 0)`.  On success the result carries the updated
entry list. -/
def apiPut (entries : List Entry) (key value : List Nat) : POutcome (List Entry) :=
  if key = [] then .err .keyRequired
  else if key.length > MAX_KEY_SIZE then .err .keyTooLarge
  else if value.length > MAX_VALUE_SIZE then .err .valueTooLarge
  else
    match iSeek entries key with
    | none => .panics
    | some e =>
      if e.flags &&& BUCKET_LEAF_FLAG ≠ 0 ∨ key ≠ e.key then .err .incompatibleValue
      else .ok (nodePut entries key value 0)

/-- src/bucket.rs, `api_delete`: `i_seek(key).unwrap()` (panic on a failed seek); return
`Ok` untouched when the key is not an exact match; `IncompatibleValue` when the element
carries `BUCKET_LEAF_FLAG`; otherwise `NodeImpl::del(key)`. -/
def apiDelete (entries : List Entry) (key : List Nat) : POutcome (List Entry) :=
  match iSeek entries key with
  | none => .panics
  | some e =>
    if key ≠ e.key then .ok entries
    else if e.flags &&& BUCKET_LEAF_FLAG ≠ 0 then .err .incompatibleValue
    else .ok (nodeDel entries key)

/-- src/bucket.rs, `api_delete_bucket`: `i_seek(key).unwrap()` (panic on a failed seek);
`BucketNotFound` when the key is not an exact match; `IncompatibleValue` when the element
carries `BUCKET_LEAF_FLAG`; otherwise `api_bucket(key).unwrap()` and recursive deletion.
In the remaining branch the element's flags are known to lack `BUCKET_LEAF_FLAG`, so
`api_bucket` returns `.ok none` and its `unwrap` panics before the recursive deletion can
run (lemma `apiDeleteBucket_dead_branch` below); the arm standing for the source's
recursive DFS is therefore unreachable and is left abstract as `.err .other`. -/
def apiDeleteBucket (entries : List Entry) (key : List Nat) : POutcome (List Entry) :=
  match iSeek entries key with
  | none => .panics
  | some e =>
    if key ≠ e.key then .err .bucketNotFound
    else if e.flags &&& BUCKET_LEAF_FLAG ≠ 0 then .err .incompatibleValue
    else
      match apiBucket entries key with
      | .panics => .panics
      | .err er => .err er
      | .ok none => .panics
      | .ok (some _) => .err .other

/-- src/bucket.rs, `api_create_bucket`: `BucketNameRequired` on an empty name; seek (no
unwrap here); if the found key matches exactly, `BucketExists` when it carries
`BUCKET_LEAF_FLAG` and `IncompatibleValue` otherwise; else write the fresh 32-byte
inline-bucket value with `NodeImpl::put(key, key, value, 0, BUCKET_LEAF_FLAG)` and
return `api_bucket(key).unwrap()` — which reaches `open_bucket` on that 32-byte value
and panics inside `bytemuck::from_bytes` (see `openBucket`). -/
def apiCreateBucket (entries : List Entry) (key : List Nat) :
    POutcome (List Entry × InBucket) :=
  if key = [] then .err .bucketNameRequired
  else
    match iSeek entries key with
    | some e =>
      if e.key = key then
        if e.flags &&& BUCKET_LEAF_FLAG ≠ 0 then .err .bucketExists
        else .err .incompatibleValue
      else
        let entries1 := nodePut entries key newBucketValue BUCKET_LEAF_FLAG
        match apiBucket entries1 key with
        | .panics => .panics
        | .err er => .err er
        | .ok none => .panics
        | .ok (some b) => .ok (entries1, b)
    | none =>
      let entries1 := nodePut entries key newBucketValue BUCKET_LEAF_FLAG
      match apiBucket entries1 key with
      | .panics => .panics
      | .err er => .err er
      | .ok none => .panics
      | .ok (some b) => .ok (entries1, b)

/-- src/bucket.rs, `api_create_bucket_if_not_exists`: `api_create_bucket`, and on
`BucketExists` fall through to `api_bucket(key).unwrap()` with the entries untouched
(this too panics in `open_bucket` when the existing bucket's value embeds an inline
page, and succeeds only for a bare 16-byte header with non-zero root). -/
def apiCreateBucketIfNotExists (entries : List Entry) (key : List Nat) :
    POutcome (List Entry × InBucket) :=
  match apiCreateBucket entries key with
  | .ok r => .ok r
  | .panics => .panics
  | .err e =>
    if e = .bucketExists then
      match apiBucket entries key with
      | .panics => .panics
      | .err er => .err er
      | .ok none => .panics
      | .ok (some b) => .ok (entries, b)
    else .err e

/-! ### Nodes and pages (src/node.rs, src/common/page.rs) -/

/-- One inode of an in-memory node: flags, child pgid, key bytes, value bytes
(spec §3, INode; src/common/inode.rs is absent but the fields are fixed by src/node.rs). -/
structure INodeRep where
  flags : Nat
  pgid : Nat
  key : List Nat
  value : List Nat
  deriving DecidableEq, Repr

/-- The header of a page together with its element descriptors.  Fields `id`, `flags`,
`count`, `overflow` mirror `Page` in src/common/page.rs; `elems` is the element array of
the page body (spec §3: a leaf or branch page's body is a sorted array of `count`
descriptors). -/
structure PageRep where
  id : Nat
  flags : Nat
  count : Nat
  overflow : Nat
  elems : List INodeRep
  deriving DecidableEq, Repr

/-- src/common/page.rs, `Page::is_leaf`. -/
def pageIsLeaf (p : PageRep) : Bool := p.flags &&& LEAF_PAGE_FLAG ≠ 0

/-- src/common/page.rs, `Page::is_branch`. -/
def pageIsBranch (p : PageRep) : Bool := p.flags &&& BRANCH_PAGE_FLAG ≠ 0

/-- src/common/page.rs, `Page::is_meta`. -/
def pageIsMeta (p : PageRep) : Bool := p.flags &&& META_PAGE_FLAG ≠ 0

/-- src/common/page.rs, `Page::is_free_list`. -/
def pageIsFreeList (p : PageRep) : Bool := p.flags &&& FREE_LIST_PAGE_FLAG ≠ 0

/-- src/common/page.rs, `Page::page_type`: a human readable type string derived from the
flags, tested in the order branch, leaf, meta, freelist.  The unknown case formats the
flag bits (`unknown<{:#02x}>`). -/
def pageTypeStr (p : PageRep) : String :=
  if pageIsBranch p then "branch"
  else if pageIsLeaf p then "leaf"
  else if pageIsMeta p then "meta"
  else if pageIsFreeList p then "freelist"
  else "unknown<0x" ++ String.mk (Nat.toDigits 16 p.flags) ++ ">"

/-- Modelled from the spec: `src/common/inode.rs` is not in the sources.
`INode::read_inodes_in` copies the page's element descriptors (spec §4.D, `read_in(page)`:
"copies element descriptors"); the descriptor array of a well-formed page has exactly
`count` elements (spec §3), which the theorems below assume as `p.elems.length = p.count`. -/
def readInodesIn (p : PageRep) : List INodeRep := p.elems

/-- The in-memory node produced by `NodeW::read_in` (src/node.rs): leaf-or-branch flag,
first key, pgid, inode list, and the `unbalanced` / `spilled` flags.  The `bucket`,
`parent` and `children` back-references are identity bookkeeping with no bearing on the
claims and are omitted. -/
structure NodeRep where
  isLeaf : Bool
  key : List Nat
  pgid : Nat
  inodes : List INodeRep
  unbalanced : Bool
  spilled : Bool
  deriving DecidableEq, Repr

/-- src/node.rs, `NodeW::read_in`: assert the page is a leaf or branch page (an assertion
failure panics, modelled as none); copy the element descriptors; the node key is the first
inode's key, or empty when there are none.  Note the source hard-codes `is_leaf: false`
for every page, leaf pages included. -/
def readIn (p : PageRep) : Option NodeRep :=
  if pageIsLeaf p ∨ pageIsBranch p then
    let inodes := readInodesIn p
    some
      { isLeaf := false
        key := match inodes with | [] => [] | e :: _ => e.key
        pgid := p.id
        inodes := inodes
        unbalanced := false
        spilled := false }
  else none

/-- src/bucket.rs, `BucketIAPI::max_inline_bucket_size`: `page_size / 4`. -/
def maxInlineBucketSize (pageSize : Nat) : Nat := pageSize / 4

/-- The loop of `BucketImpl::inlineable` (src/bucket.rs): accumulate
`LEAF_PAGE_ELEMENT_SIZE + key_len + value_len` per inode starting from
`PAGE_HEADER_SIZE`; false as soon as an inode carries `BUCKET_LEAF_FLAG` or the
accumulated size exceeds the threshold. -/
def inlineableLoop (inodes : List INodeRep) (size maxSize : Nat) : Bool :=
  match inodes with
  | [] => true
  | i :: rest =>
    let size' := size + LEAF_PAGE_ELEMENT_SIZE + i.key.length + i.value.length
    if i.flags &&& BUCKET_LEAF_FLAG ≠ 0 then false
    else if size' > maxSize then false
    else inlineableLoop rest size' maxSize

/-- src/bucket.rs, `BucketImpl::inlineable`: false when no root node is materialized;
false when the root node's `is_leaf` flag is set (note: the source tests `is_leaf`, not
`!is_leaf`, despite its own comment "Bucket must only contain a single leaf node");
otherwise scan the inodes for sub-bucket flags and the size threshold `page_size / 4`. -/
def inlineable (rootNode : Option NodeRep) (pageSize : Nat) : Bool :=
  match rootNode with
  | none => false
  | some n =>
    if n.isLeaf then false
    else inlineableLoop n.inodes PAGE_HEADER_SIZE (maxInlineBucketSize pageSize)

/-! ### Transactions (src/tx.rs) -/

/-- One of the two meta copies, restricted to the fields src/tx.rs reads: the root bucket
header, the high-water mark `pgid`, the transaction id and the page size (spec §3). -/
structure Meta where
  root : InBucket
  pgid : Nat
  txid : Nat
  pageSize : Nat
  deriving DecidableEq, Repr

/-- src/tx.rs, `TxStats`: transaction statistics counters (the `Duration` fields are
modelled as nanosecond counts). -/
structure TxStats where
  pageCount : Int
  pageAlloc : Int
  cursorCount : Int
  nodeCount : Int
  nodeDeref : Int
  rebalance : Int
  rebalanceTime : Nat
  split : Int
  spill : Int
  spillTime : Nat
  write : Int
  writeTime : Nat
  deriving DecidableEq, Repr

/-- Modelled from the spec: `src/db.rs` is not in the sources.  §4.C, the pager maps page
ids to read views (`page(id) -> ReadView`) and, for `Transaction::page`, reports whether a
page id is on the free list (`freed(id) -> bool` via the freelist the pager loads). -/
structure Pager where
  page : Nat → PageRep
  pageIsFree : Nat → Bool

/-- src/tx.rs, `TxR`: the read-side state of a transaction — page size, pager handle,
statistics, the snapshot meta and the `is_rollback` flag.  (The bump arena `b` is an
allocator handle with no observable content.) -/
structure TxR where
  pageSize : Nat
  pager : Pager
  stats : TxStats
  meta : Meta
  isRollback : Bool

/-- src/tx.rs, `TxW`: the writer-side state; for the frame claims only the dirty-page
cache matters (`commit_handlers` are opaque callbacks). -/
structure TxW where
  pages : List (Nat × PageRep)

/-- src/tx.rs, `TxRW`: read side plus writer side of a writable transaction. -/
structure TxRW where
  r : TxR
  w : TxW

/-- src/tx.rs, `TxIAPI::rollback` (the default method both `TxCell` and `TxRwCell` use):
set `is_rollback` on the read-side state and return `Ok(())`. -/
def txRollback (t : TxR) : TxR × (Except DbError Unit) :=
  ({ t with isRollback := true }, Except.ok ())

/-- src/tx.rs, `TxImpl::rollback` / `TxRwImpl::rollback`: delegate to `TxIAPI::rollback`
on the inner cell (for a writable transaction the writer side is untouched) and return
`Ok(())`. -/
def txRwRollback (t : TxRW) : TxRW × (Except DbError Unit) :=
  ({ t with r := (txRollback t.r).1 }, Except.ok ())

/-- src/common/page.rs, `PageInfo`: id, human readable type, count and overflow count. -/
structure TxPageInfo where
  id : Nat
  t : String
  count : Nat
  overflowCount : Nat
  deriving DecidableEq, Repr

/-- src/tx.rs, `TxIAPI::api_page`: `Ok(None)` when the requested id is at or above the
snapshot meta's high-water mark; otherwise fetch the page from the pager and report its
own id, `"free"` when the pager's freelist holds the id, else the flag-derived type
string, plus the element and overflow counts. -/
def apiPage (t : TxR) (id : Nat) : Except DbError (Option TxPageInfo) :=
  if id ≥ t.meta.pgid then Except.ok none
  else
    let p := t.pager.page id
    let pid := p.id
    Except.ok (some
      { id := pid
        t := if t.pager.pageIsFree pid then "free" else pageTypeStr p
        count := p.count
        overflowCount := p.overflow })

/-! ### Supporting lemmas about the key order, the cursor seek, and node insertion -/

theorem keyCmp_self : ∀ a : List Nat, keyCmp a a = .eq
  | [] => rfl
  | x :: xs => by
    have hx : compare x x = Ordering.eq := Nat.compare_eq_eq.mpr rfl
    simp [keyCmp, hx, keyCmp_self xs]

theorem keyCmp_eq_iff : ∀ a b : List Nat, keyCmp a b = .eq ↔ a = b
  | [], [] => by simp [keyCmp]
  | [], _ :: _ => by simp [keyCmp]
  | _ :: _, [] => by simp [keyCmp]
  | x :: xs, y :: ys => by
    simp only [keyCmp]
    cases hxy : compare x y with
    | eq =>
      have hx : x = y := Nat.compare_eq_eq.mp hxy
      simp [hx, keyCmp_eq_iff xs ys]
    | lt =>
      have hx : x ≠ y := Nat.ne_of_lt (Nat.compare_eq_lt.mp hxy)
      simp [hx]
    | gt =>
      have hx : x ≠ y := (Nat.ne_of_lt (Nat.compare_eq_gt.mp hxy)).symm
      simp [hx]

theorem keyCmp_swap : ∀ a b : List Nat, keyCmp b a = (keyCmp a b).swap
  | [], [] => rfl
  | [], _ :: _ => rfl
  | _ :: _, [] => rfl
  | x :: xs, y :: ys => by
    simp only [keyCmp]
    rcases Nat.lt_trichotomy x y with h | h | h
    · have h1 : compare x y = Ordering.lt := Nat.compare_eq_lt.mpr h
      have h2 : compare y x = Ordering.gt := Nat.compare_eq_gt.mpr h
      simp [h1, h2, Ordering.swap]
    · subst h
      have h1 : compare x x = Ordering.eq := Nat.compare_eq_eq.mpr rfl
      simp [h1, keyCmp_swap xs ys]
    · have h1 : compare x y = Ordering.gt := Nat.compare_eq_gt.mpr h
      have h2 : compare y x = Ordering.lt := Nat.compare_eq_lt.mpr h
      simp [h1, h2, Ordering.swap]

theorem keyCmp_gt_iff_lt (a b : List Nat) : keyCmp a b = .gt ↔ keyCmp b a = .lt := by
  rw [keyCmp_swap a b]
  cases keyCmp a b <;> simp [Ordering.swap]

theorem keyCmp_lt_trans :
    ∀ {a b c : List Nat}, keyCmp a b = .lt → keyCmp b c = .lt → keyCmp a c = .lt
  | [], [], _, h1, _ => by simp [keyCmp] at h1
  | [], _ :: _, [], _, h2 => by simp [keyCmp] at h2
  | [], _ :: _, _ :: _, _, _ => rfl
  | _ :: _, [], _, h1, _ => by simp [keyCmp] at h1
  | _ :: _, _ :: _, [], _, h2 => by simp [keyCmp] at h2
  | x :: xs, y :: ys, z :: zs, h1, h2 => by
    simp only [keyCmp] at h1 h2 ⊢
    cases hxy : compare x y with
    | gt => simp [hxy] at h1
    | lt =>
      have hx : x < y := Nat.compare_eq_lt.mp hxy
      cases hyz : compare y z with
      | gt => simp [hyz] at h2
      | lt =>
        have hy : y < z := Nat.compare_eq_lt.mp hyz
        simp [Nat.compare_eq_lt.mpr (Nat.lt_trans hx hy)]
      | eq =>
        have hy : y = z := Nat.compare_eq_eq.mp hyz
        simp [hy ▸ hxy]
    | eq =>
      have hx : x = y := Nat.compare_eq_eq.mp hxy
      rw [hxy] at h1
      cases hyz : compare y z with
      | gt => simp [hyz] at h2
      | lt => simp [hx ▸ hyz]
      | eq =>
        rw [hyz] at h2
        have hcomp : compare x z = Ordering.eq :=
          Nat.compare_eq_eq.mpr (hx.trans (Nat.compare_eq_eq.mp hyz))
        simp [hcomp, keyCmp_lt_trans h1 h2]

/-- The cursor seek only ever returns an element of the entry list. -/
theorem iSeek_mem :
    ∀ {entries : List Entry} {key : List Nat} {e : Entry},
      iSeek entries key = some e → e ∈ entries
  | [], _, _, h => by simp [iSeek] at h
  | e0 :: rest, key, e, h => by
    by_cases hc : keyCmp key e0.key ≠ .gt
    · simp only [iSeek, if_pos hc, Option.some.injEq] at h
      exact h ▸ List.mem_cons_self e0 rest
    · simp only [iSeek, if_neg hc] at h
      exact List.mem_cons_of_mem _ (iSeek_mem h)

/-- On a sorted entry list, seeking the key of a stored entry returns exactly that
entry. -/
theorem iSeek_of_mem :
    ∀ {entries : List Entry} {key : List Nat} {v : List Nat} {f : Nat},
      EntriesSorted entries → (⟨key, v, f⟩ : Entry) ∈ entries →
      iSeek entries key = some ⟨key, v, f⟩
  | [], _, _, _, _, hmem => by simp at hmem
  | e0 :: rest, key, v, f, hsorted, hmem => by
    rcases List.mem_cons.mp hmem with heq | htail
    · have hkey : key = e0.key := congrArg Entry.key heq
      have hcond : keyCmp key e0.key ≠ .gt := by
        rw [hkey, keyCmp_self]
        simp
      simp only [iSeek, if_pos hcond]
      exact congrArg some heq.symm
    · have hlt : keyCmp e0.key key = .lt :=
        (List.pairwise_cons.mp hsorted).1 _ htail
      have hgt : keyCmp key e0.key = .gt := (keyCmp_gt_iff_lt _ _).mpr hlt
      simp only [iSeek, hgt]
      exact iSeek_of_mem (List.pairwise_cons.mp hsorted).2 htail

/-- Every element of `nodePut entries key value flags` is either an original entry or the
newly written one. -/
theorem nodePut_mem_sub :
    ∀ {entries : List Entry} {key value : List Nat} {flags : Nat} {b : Entry},
      b ∈ nodePut entries key value flags → b ∈ entries ∨ b = ⟨key, value, flags⟩
  | [], key, value, flags, b, h => by
    simp [nodePut] at h
    exact Or.inr h
  | e0 :: rest, key, value, flags, b, h => by
    simp only [nodePut] at h
    cases hc : keyCmp key e0.key with
    | lt =>
      rw [hc] at h
      rcases List.mem_cons.mp h with h1 | h1
      · exact Or.inr h1
      · exact Or.inl h1
    | eq =>
      rw [hc] at h
      rcases List.mem_cons.mp h with h1 | h1
      · exact Or.inr h1
      · exact Or.inl (List.mem_cons_of_mem _ h1)
    | gt =>
      rw [hc] at h
      rcases List.mem_cons.mp h with h1 | h1
      · exact Or.inl (h1 ▸ List.mem_cons_self e0 rest)
      · rcases nodePut_mem_sub h1 with h2 | h2
        · exact Or.inl (List.mem_cons_of_mem _ h2)
        · exact Or.inr h2

/-- The entry written by `nodePut` is present in the result. -/
theorem nodePut_mem :
    ∀ (entries : List Entry) (key value : List Nat) (flags : Nat),
      (⟨key, value, flags⟩ : Entry) ∈ nodePut entries key value flags
  | [], key, value, flags => by simp [nodePut]
  | e0 :: rest, key, value, flags => by
    simp only [nodePut]
    cases hc : keyCmp key e0.key with
    | lt => exact List.mem_cons_self _ _
    | eq => exact List.mem_cons_self _ _
    | gt => exact List.mem_cons_of_mem _ (nodePut_mem rest key value flags)

/-- `nodePut` preserves the strictly ascending key order. -/
theorem nodePut_sorted :
    ∀ {entries : List Entry} (key value : List Nat) (flags : Nat),
      EntriesSorted entries → EntriesSorted (nodePut entries key value flags)
  | [], key, value, flags, _ => by simp [nodePut, EntriesSorted]
  | e0 :: rest, key, value, flags, hsorted => by
    obtain ⟨hhead, htail⟩ := List.pairwise_cons.mp hsorted
    simp only [nodePut]
    cases hc : keyCmp key e0.key with
    | lt =>
      refine List.pairwise_cons.mpr ⟨?_, hsorted⟩
      intro b hb
      rcases List.mem_cons.mp hb with h1 | h1
      · exact h1 ▸ hc
      · exact keyCmp_lt_trans hc (hhead b h1)
    | eq =>
      have hkey : key = e0.key := (keyCmp_eq_iff _ _).mp hc
      refine List.pairwise_cons.mpr ⟨?_, htail⟩
      intro b hb
      exact hkey ▸ hhead b hb
    | gt =>
      refine List.pairwise_cons.mpr ⟨?_, nodePut_sorted key value flags htail⟩
      intro b hb
      rcases nodePut_mem_sub hb with h1 | h1
      · exact hhead b h1
      · rw [h1]
        exact (keyCmp_gt_iff_lt _ _).mp hc

/-- In `api_delete_bucket`, the branch reached when the sought entry lacks
`BUCKET_LEAF_FLAG` always finds `api_bucket` returning none (so its `unwrap` panics and
the source's recursive deletion is dead code). -/
theorem apiDeleteBucket_dead_branch {entries : List Entry} {key : List Nat} {e : Entry}
    (hseek : iSeek entries key = some e) (hflag : e.flags &&& BUCKET_LEAF_FLAG = 0) :
    apiBucket entries key = .ok none := by
  simp [apiBucket, hseek, hflag]

/-! ### Claim theorems -/

/-- C1.  The claim states that `put(key, value)` (sizes in range) returns
`IncompatibleValue` only when an existing entry with exactly that key is a sub-bucket,
and otherwise inserts an absent key or overwrites a plain entry, returning Ok.  The code
errors on the condition `(flags & BUCKET_LEAF_FLAG) != 0 || key != k` after the seek, so
a put of the absent key `[97]` into a bucket holding only the plain entry `[98]` — which
the claim says must insert and return Ok — returns `IncompatibleValue` (first conjunct).
Overwriting an existing plain key still works (second conjunct), and a put onto an
existing sub-bucket key errors as the claim says (third conjunct). -/
theorem apiPut_rejects_absent_key :
    apiPut [⟨[98], [118], 0⟩] [97] [120] = .err .incompatibleValue ∧
    apiPut [⟨[97], [118], 0⟩] [97] [120] = .ok [⟨[97], [120], 0⟩] ∧
    apiPut [⟨[97], [118], BUCKET_LEAF_FLAG⟩] [97] [120] = .err .incompatibleValue := by
  decide

/-- C2.  The claim states that `delete_bucket(key)` returns `BucketNotFound` when no
entry with the key exists, `IncompatibleValue` when the entry is a plain value, and
succeeds when the entry is a sub-bucket.  The code has the flag test inverted: on the
sub-bucket entry `[97]` it returns `IncompatibleValue` (first conjunct, where the claim —
and the doc comment on `TxRwApi::delete_bucket` — require success), and on a plain entry
it proceeds into the deletion path where `api_bucket(key).unwrap()` panics because the
entry lacks `BUCKET_LEAF_FLAG` (second conjunct, where the claim requires
`IncompatibleValue`).  Only the `BucketNotFound` case matches the claim (third
conjunct). -/
theorem apiDeleteBucket_flag_inverted :
    apiDeleteBucket [⟨[97], newBucketValue, BUCKET_LEAF_FLAG⟩] [97]
        = .err .incompatibleValue ∧
    apiDeleteBucket [⟨[97], [118], 0⟩] [97] = .panics ∧
    apiDeleteBucket [⟨[98], [118], 0⟩] [97] = .err .bucketNotFound := by
  decide

/-- C3.  The claim states that `inlineable` returns true iff the materialized root node
is a leaf, carries no `BUCKET_LEAF_FLAG` inode, and the projected size
`PAGE_HEADER_SIZE + Σ (LEAF_PAGE_ELEMENT_SIZE + key_len + value_len)` is at most
`page_size / 4`.  The code tests `if node.is_leaf { return false }` — inverted against
its own comment "Bucket must only contain a single leaf node" — so a small leaf root
with one plain inode (projected size 34 ≤ 1024) is reported not inlineable (first
conjunct), while the same inodes under a branch root are reported inlineable (second
conjunct).  The remaining checks behave as claimed relative to that inverted guard: a
sub-bucket inode defeats inlining (third conjunct) and the boundary is inclusive at
exactly `page_size / 4` and exclusive one byte later (fourth and fifth conjuncts, 100-
and 101-byte values against `max_inline_bucket_size 536` = 134 = 16 + 16 + 2 + 100). -/
theorem inlineable_leaf_inverted :
    inlineable (some ⟨true, [], 0, [⟨0, 0, [97], [118]⟩], false, false⟩) 4096 = false ∧
    inlineable (some ⟨false, [], 0, [⟨0, 0, [97], [118]⟩], false, false⟩) 4096 = true ∧
    inlineable (some ⟨false, [], 0, [⟨BUCKET_LEAF_FLAG, 0, [97], [118]⟩], false, false⟩)
        4096 = false ∧
    inlineable (some ⟨false, [], 0, [⟨0, 0, [97, 98], List.replicate 100 0⟩], false,
        false⟩) 536 = true ∧
    inlineable (some ⟨false, [], 0, [⟨0, 0, [97, 98], List.replicate 101 0⟩], false,
        false⟩) 536 = false := by
  decide

/-- C4.  The claim states that `NodeW::read_in` produces a node whose leaf flag matches
the page's (`is_leaf` true exactly when the page carries the leaf flag), whose pgid is
the page id, whose inode list has the page's element count, and whose key is the first
element's key (empty when there are none).  The source hard-codes `is_leaf: false`: on a
leaf page (flags = 0x02) the produced node still has `isLeaf = false` (first conjunct)
even though the page satisfies `is_leaf` (second conjunct); the pgid, inode-count and
first-key parts of the claim do hold at the same input, as they do on a branch page and
on an empty leaf page (third and fourth conjuncts); a non-tree page fails the assertion
(fifth conjunct). -/
theorem readIn_is_leaf_hardcoded_false :
    readIn ⟨7, LEAF_PAGE_FLAG, 1, 0, [⟨0, 0, [97], [118]⟩]⟩
        = some ⟨false, [97], 7, [⟨0, 0, [97], [118]⟩], false, false⟩ ∧
    pageIsLeaf ⟨7, LEAF_PAGE_FLAG, 1, 0, [⟨0, 0, [97], [118]⟩]⟩ = true ∧
    readIn ⟨9, BRANCH_PAGE_FLAG, 2, 0, [⟨0, 12, [97], []⟩, ⟨0, 13, [99], []⟩]⟩
        = some ⟨false, [97], 9, [⟨0, 12, [97], []⟩, ⟨0, 13, [99], []⟩], false, false⟩ ∧
    readIn ⟨4, LEAF_PAGE_FLAG, 0, 0, []⟩ = some ⟨false, [], 4, [], false, false⟩ ∧
    readIn ⟨0, META_PAGE_FLAG, 0, 0, []⟩ = none := by
  decide

/-- C5, counterexample.  The claim states `get(key)` returns None both when the key is
absent and when it names a sub-bucket, for every bucket and key.  But `api_get` unwraps
the seek: when every stored key is smaller than the sought key (first conjunct) or the
bucket is empty (second conjunct) the operation panics instead of returning None. -/
theorem apiGet_panics_counterexample :
    apiGet [⟨[97], [118], 0⟩] [98] = .panics ∧
    apiGet ([] : List Entry) [97] = .panics ∧
    POutcome.panics ≠ (POutcome.ok none : POutcome (Option (List Nat))) := by
  decide

/-- C5, amended.  On a sorted bucket, when the seek finds no element (every stored key is
strictly smaller than the sought key) `get` panics; otherwise `get` returns Some(value)
iff the bucket holds an entry with exactly that key whose flags lack `BUCKET_LEAF_FLAG`,
and returns None both when the key is absent and when the key names a sub-bucket. -/
theorem apiGet_spec (entries : List Entry) (key : List Nat) (hs : EntriesSorted entries) :
    (iSeek entries key = none → apiGet entries key = .panics) ∧
    (∀ e, iSeek entries key = some e →
      (∀ v, apiGet entries key = .ok (some v) ↔
          ∃ f, f &&& BUCKET_LEAF_FLAG = 0 ∧ (⟨key, v, f⟩ : Entry) ∈ entries) ∧
      (apiGet entries key = .ok none ↔
          ¬ ∃ v f, f &&& BUCKET_LEAF_FLAG = 0 ∧ (⟨key, v, f⟩ : Entry) ∈ entries)) := by
  constructor
  · intro hseek
    simp [apiGet, hseek]
  · intro e hseek
    by_cases hflag : e.flags &&& BUCKET_LEAF_FLAG ≠ 0
    · have hget : apiGet entries key = .ok none := by
        simp [apiGet, hseek, hflag]
      have hno : ¬ ∃ v f, f &&& BUCKET_LEAF_FLAG = 0 ∧ (⟨key, v, f⟩ : Entry) ∈ entries := by
        rintro ⟨v, f, hf, hmem⟩
        have h1 := iSeek_of_mem hs hmem
        rw [hseek] at h1
        have h2 : e = ⟨key, v, f⟩ := by injection h1
        rw [h2] at hflag
        exact hflag hf
      refine ⟨?_, ?_⟩
      · intro v
        simp only [hget]
        constructor
        · intro h
          simp at h
        · intro ⟨f, hf, hmem⟩
          exact absurd ⟨_, f, hf, hmem⟩ hno
      · simp [hget, hno]
    · push_neg at hflag
      by_cases hk : key = e.key
      · have hget : apiGet entries key = .ok (some e.value) := by
          simp only [apiGet, hseek]
          simp [hflag, hk]
        have hmem0 : (⟨key, e.value, e.flags⟩ : Entry) ∈ entries := by
          have he : e = ⟨key, e.value, e.flags⟩ := by
            cases e
            simpa using hk.symm
          exact he ▸ iSeek_mem hseek
        refine ⟨?_, ?_⟩
        · intro v
          simp only [hget, POutcome.ok.injEq, Option.some.injEq]
          constructor
          · intro h
            exact ⟨e.flags, hflag, h ▸ hmem0⟩
          · rintro ⟨f, hf, hmem⟩
            have h1 := iSeek_of_mem hs hmem
            rw [hseek] at h1
            have h2 : e = ⟨key, v, f⟩ := by injection h1
            rw [h2]
        · simp only [hget]
          constructor
          · intro h
            simp at h
          · intro h
            exact absurd ⟨e.value, e.flags, hflag, hmem0⟩ h
      · have hget : apiGet entries key = .ok none := by
          simp [apiGet, hseek, hflag, hk]
        have hno : ¬ ∃ v f, f &&& BUCKET_LEAF_FLAG = 0 ∧ (⟨key, v, f⟩ : Entry) ∈ entries := by
          rintro ⟨v, f, hf, hmem⟩
          have h1 := iSeek_of_mem hs hmem
          rw [hseek] at h1
          have h2 : e = ⟨key, v, f⟩ := by injection h1
          exact hk (by rw [h2])
        refine ⟨?_, ?_⟩
        · intro v
          simp only [hget]
          constructor
          · intro h
            simp at h
          · intro ⟨f, hf, hmem⟩
            exact absurd ⟨_, f, hf, hmem⟩ hno
        · simp [hget, hno]

/-- C5, witness: the amended theorem applied to the singleton bucket `[97] ↦ [118]`
retrieves the stored plain value. -/
theorem apiGet_spec_witness :
    apiGet [⟨[97], [118], 0⟩] [97] = .ok (some [118]) := by
  have hs : EntriesSorted [⟨[97], [118], 0⟩] := by
    simp [EntriesSorted]
  have h := ((apiGet_spec [⟨[97], [118], 0⟩] [97] hs).2 ⟨[97], [118], 0⟩ (by decide)).1 [118]
  exact h.mpr ⟨0, by decide, by simp⟩

/-- C6.  The claim states that `create_bucket(name)` returns `BucketNameRequired` /
`BucketExists` / `IncompatibleValue` in the documented cases — which the code does
(third, fourth and fifth conjuncts) — and otherwise writes a leaf value of
`InBucket{root=0, seq=0}` followed by an empty inline leaf page *and returns the new
bucket*, with `create_bucket_if_not_exists` returning the existing bucket on
`BucketExists`.  The code does write exactly the claimed 32-byte value (second
conjunct), but the trailing `api_bucket(key).unwrap()` then reaches `open_bucket`,
whose `bytemuck::from_bytes::<InBucket>` accepts only exactly 16 bytes: creating a
fresh bucket panics instead of returning it (first conjunct), and
`create_bucket_if_not_exists` on an existing inline bucket panics too (sixth
conjunct).  Only a pre-existing bare 16-byte header with a non-zero root — a
non-inline bucket — survives the open (seventh conjunct). -/
theorem apiCreateBucket_panics_opening_fresh :
    apiCreateBucket [] [97] = .panics ∧
    (nodePut [] [97] newBucketValue BUCKET_LEAF_FLAG
        = [⟨[97], newBucketValue, BUCKET_LEAF_FLAG⟩] ∧
      newBucketValue = inBucketBytes ⟨0, 0⟩ ++ pageHeaderBytes 0 LEAF_PAGE_FLAG 0 0 ∧
      newBucketValue.length = INLINE_PAGE_SIZE ∧
      openBucket newBucketValue = .panics) ∧
    apiCreateBucket [] [] = .err .bucketNameRequired ∧
    apiCreateBucket [⟨[97], newBucketValue, BUCKET_LEAF_FLAG⟩] [97]
        = .err .bucketExists ∧
    apiCreateBucket [⟨[97], [118], 0⟩] [97] = .err .incompatibleValue ∧
    apiCreateBucketIfNotExists [⟨[97], newBucketValue, BUCKET_LEAF_FLAG⟩] [97]
        = .panics ∧
    apiCreateBucketIfNotExists [⟨[97], inBucketBytes ⟨9, 0⟩, BUCKET_LEAF_FLAG⟩] [97]
        = .ok ([⟨[97], inBucketBytes ⟨9, 0⟩, BUCKET_LEAF_FLAG⟩], ⟨9, 0⟩) := by
  decide

/-- C7.  `put` returns `KeyRequired` exactly for the empty key, `KeyTooLarge` exactly
when the key is longer than `MAX_KEY_SIZE = 32768` bytes (so a 32 768-byte key passes
this check and a 32 769-byte key is rejected), and — once the key checks pass —
`ValueTooLarge` exactly when the value is longer than `MAX_VALUE_SIZE = 2^31 − 2` bytes.
The iffs hold for every entry list, in particular for states in which the subsequent
seek would panic or mutate: the checks run before any access to the tree. -/
theorem apiPut_size_checks (entries : List Entry) (key value : List Nat) :
    (apiPut entries key value = .err .keyRequired ↔ key = []) ∧
    (apiPut entries key value = .err .keyTooLarge ↔ key.length > MAX_KEY_SIZE) ∧
    (key ≠ [] → key.length ≤ MAX_KEY_SIZE →
      (apiPut entries key value = .err .valueTooLarge ↔
        value.length > MAX_VALUE_SIZE)) := by
  by_cases h1 : key = []
  · have hlen : ¬ key.length > MAX_KEY_SIZE := by
      simp [h1]
    simp [apiPut, h1, hlen]
  · by_cases h2 : key.length > MAX_KEY_SIZE
    · simp [apiPut, h1, h2]
    · by_cases h3 : value.length > MAX_VALUE_SIZE
      · simp [apiPut, h1, h2, h3]
      · refine ⟨?_, ?_, ?_⟩
        · simp only [apiPut, if_neg h1, if_neg h2, if_neg h3]
          cases hseek : iSeek entries key with
          | none => simp [h1]
          | some e =>
            by_cases hguard : e.flags &&& BUCKET_LEAF_FLAG ≠ 0 ∨ key ≠ e.key <;>
              simp [hguard, h1]
        · simp only [apiPut, if_neg h1, if_neg h2, if_neg h3]
          cases hseek : iSeek entries key with
          | none => simp [h2]
          | some e =>
            by_cases hguard : e.flags &&& BUCKET_LEAF_FLAG ≠ 0 ∨ key ≠ e.key <;>
              simp [hguard, h2]
        · intro _ _
          simp only [apiPut, if_neg h1, if_neg h2, if_neg h3]
          cases hseek : iSeek entries key with
          | none => simp [h3]
          | some e =>
            by_cases hguard : e.flags &&& BUCKET_LEAF_FLAG ≠ 0 ∨ key ≠ e.key <;>
              simp [hguard, h3]

/-- C7, witness: a 32 769-byte key is rejected with `KeyTooLarge`, a value of
`2^31 − 1` bytes with `ValueTooLarge`, and the empty key with `KeyRequired`. -/
theorem apiPut_size_checks_witness :
    apiPut [] (List.replicate 32769 0) [] = .err .keyTooLarge ∧
    apiPut [] [0] (List.replicate (2 ^ 31 - 1) 0) = .err .valueTooLarge ∧
    apiPut [] [] [] = .err .keyRequired := by
  refine ⟨?_, ?_, ?_⟩
  · exact (apiPut_size_checks [] (List.replicate 32769 0) []).2.1.mpr
      (by rw [List.length_replicate]; decide)
  · exact ((apiPut_size_checks [] [0] (List.replicate (2 ^ 31 - 1) 0)).2.2
      (by decide) (by decide)).mpr (by rw [List.length_replicate]; decide)
  · exact (apiPut_size_checks [] [] []).1.mpr rfl

/-- C8.  The bucket operations unwrap the internal seek: on every bucket state where the
seek yields no element (every stored key strictly smaller than the sought key, or an
empty bucket), `get`, `delete` and `delete_bucket` panic, and `put` panics as well once
its size checks pass — none of them returns None or an error. -/
theorem seek_none_all_panic (entries : List Entry) (key value : List Nat)
    (hseek : iSeek entries key = none) :
    apiGet entries key = .panics ∧
    apiDelete entries key = .panics ∧
    apiDeleteBucket entries key = .panics ∧
    (key ≠ [] → key.length ≤ MAX_KEY_SIZE → value.length ≤ MAX_VALUE_SIZE →
      apiPut entries key value = .panics) := by
  refine ⟨?_, ?_, ?_, ?_⟩
  · simp [apiGet, hseek]
  · simp [apiDelete, hseek]
  · simp [apiDeleteBucket, hseek]
  · intro h1 h2 h3
    simp [apiPut, h1, Nat.not_lt.mpr h2, Nat.not_lt.mpr h3, hseek]

/-- C8, witness: on the empty bucket the seek fails and all four operations panic. -/
theorem seek_none_all_panic_witness :
    apiGet [] [97] = .panics ∧
    apiDelete [] [97] = .panics ∧
    apiDeleteBucket [] [97] = .panics ∧
    apiPut [] [97] [118] = .panics := by
  have h := seek_none_all_panic [] [97] [118] rfl
  exact ⟨h.1, h.2.1, h.2.2.1,
    h.2.2.2 (by simp) (by simp [MAX_KEY_SIZE]) (by simp [MAX_VALUE_SIZE])⟩

/-- C9.  `rollback` always returns `Ok(())`, for read-only and writable transactions
alike, and its only effect on the transaction state is setting the `is_rollback` flag:
the snapshot meta, the statistics, the page size, the pager handle and the writer-side
dirty-page cache are all unchanged. -/
theorem rollback_sets_flag_only (t : TxRW) :
    (txRwRollback t).2 = Except.ok () ∧
    (txRollback t.r).2 = Except.ok () ∧
    (txRwRollback t).1.r.isRollback = true ∧
    (txRwRollback t).1.r.meta = t.r.meta ∧
    (txRwRollback t).1.r.stats = t.r.stats ∧
    (txRwRollback t).1.r.pageSize = t.r.pageSize ∧
    (txRwRollback t).1.r.pager = t.r.pager ∧
    (txRwRollback t).1.w = t.w ∧
    (txRollback t.r).1 = { t.r with isRollback := true } :=
  ⟨rfl, rfl, rfl, rfl, rfl, rfl, rfl, rfl, rfl⟩

/-- C10.  Provided the pager returns pages that carry their own id (§4.A
`fast_check` asserts exactly this whenever a page is handed out),
`Transaction::page(id)` returns `Ok(None)` exactly when the id is at or above the
snapshot meta's high-water mark, and otherwise `Ok(Some(info))` where `info.id` is the
requested id and the type string is `"free"` when the pager reports the page free, else
derived from the page's flags. -/
theorem apiPage_spec (t : TxR) (id : Nat) (hpager : ∀ i, (t.pager.page i).id = i) :
    (apiPage t id = Except.ok none ↔ id ≥ t.meta.pgid) ∧
    (id < t.meta.pgid →
      apiPage t id = Except.ok (some
        { id := id
          t := if t.pager.pageIsFree id then "free" else pageTypeStr (t.pager.page id)
          count := (t.pager.page id).count
          overflowCount := (t.pager.page id).overflow })) := by
  constructor
  · constructor
    · intro h
      by_contra hge
      have hlt : id < t.meta.pgid := Nat.lt_of_not_le hge
      simp [apiPage, Nat.not_le.mpr hlt] at h
    · intro hge
      simp [apiPage, hge]
  · intro hlt
    simp [apiPage, Nat.not_le.mpr hlt, hpager]

/-- C10, witness: a pager whose every page is a leaf page carrying its own id, high-water
mark 5; page 2 is reported with id 2 and type string `"leaf"`, page 7 as None. -/
theorem apiPage_spec_witness :
    apiPage ⟨4096, ⟨fun i => ⟨i, LEAF_PAGE_FLAG, 0, 0, []⟩, fun _ => false⟩,
        ⟨0, 0, 0, 0, 0, 0, 0, 0, 0, 0, 0, 0⟩, ⟨⟨3, 0⟩, 5, 1, 4096⟩, false⟩ 2
      = Except.ok (some ⟨2, "leaf", 0, 0⟩) ∧
    apiPage ⟨4096, ⟨fun i => ⟨i, LEAF_PAGE_FLAG, 0, 0, []⟩, fun _ => false⟩,
        ⟨0, 0, 0, 0, 0, 0, 0, 0, 0, 0, 0, 0⟩, ⟨⟨3, 0⟩, 5, 1, 4096⟩, false⟩ 7
      = Except.ok none := by
  constructor
  · have h := (apiPage_spec ⟨4096, ⟨fun i => ⟨i, LEAF_PAGE_FLAG, 0, 0, []⟩, fun _ => false⟩,
        ⟨0, 0, 0, 0, 0, 0, 0, 0, 0, 0, 0, 0⟩, ⟨⟨3, 0⟩, 5, 1, 4096⟩, false⟩ 2
        (fun i => rfl)).2 (by norm_num)
    simpa [pageTypeStr, pageIsBranch, pageIsLeaf, LEAF_PAGE_FLAG, BRANCH_PAGE_FLAG] using h
  · exact (apiPage_spec ⟨4096, ⟨fun i => ⟨i, LEAF_PAGE_FLAG, 0, 0, []⟩, fun _ => false⟩,
        ⟨0, 0, 0, 0, 0, 0, 0, 0, 0, 0, 0, 0⟩, ⟨⟨3, 0⟩, 5, 1, 4096⟩, false⟩ 7
        (fun i => rfl)).1.mpr (by norm_num)
